import Mathlib

/-!
# Nightshift: verification of the task-queue, prioritizer, failover manager,
# result parser and diff engine

Shallow embedding of the Nightshift repository (`src/` of `im-sham/nightshift`)
translated from the Python sources:

* `src/models.py`      — enums and dataclasses (`TaskStatus`, `TaskType`,
  `FindingSeverity`, `ResearchTask`, `Finding`);
* `src/task_queue.py`  — the SQLite-backed `TaskQueue`: the `tasks` table is
  modelled as a list of rows in rowid order, SQL `UPDATE ... WHERE id = ?`
  as a map over the rows, and `SELECT ... ORDER BY priority ASC LIMIT 1` as
  a scan for the first row of minimal priority (SQLite leaves the order of
  ties unspecified; the scan keeps the earliest row, one legal refinement);
* `src/model_manager.py` — `ModelFailoverManager`;
* `src/prioritization.py` — `SmartPrioritizer`;
* `src/runner.py`      — `NightshiftRunner._parse_findings`;
* `src/diff_report.py` — `DiffReportGenerator.record_run` / `compute_diff`.

Modelling conventions.  `datetime` values are represented by their ISO-8601
strings: the code only ever stores `datetime.now().isoformat()` and reparses
it with `datetime.fromisoformat`, which round-trips exactly (microsecond
precision).  `time.time()` instants and cooldown horizons are modelled as
integers (only additions of whole seconds and order comparisons occur, which
Python floats perform exactly at these magnitudes).  `uuid.uuid4().hex[:8]`
fragments are nondeterministic fresh strings; functions that mint ids take an
explicit `uid : Nat → String` argument supplying the fragment for the k-th
object created.  Python truthiness on optional strings (`if run_id:`) is
`runIdTruthy`: both `None` and `""` are falsy.  `models.ResearchTask` is
kept exactly as shipped — **without** the `run_id` field that
`task_queue.py` passes as a keyword — so the constructor calls passing
`run_id=` are modelled as raising `TypeError`
(`researchTaskRunIdTypeError`), faithfully collapsing the task-generation,
dequeue and reload paths onto that error.
-/

namespace Nightshift

/-- `models.TaskStatus`: status of a research task.  The SQLite `status`
column stores `TaskStatus(...).value`; as the mapping constructor ↔ value
string is a bijection and every write goes through it (or the literal
strings of the `UPDATE` statements in `task_queue.py`), rows carry the
enum directly. -/
inductive TaskStatus where
  | pending
  | in_progress
  | completed
  | failed
  | skipped
deriving DecidableEq, Repr

/-- `models.TaskType`: the eleven research task kinds. -/
inductive TaskType where
  | file_structure_analysis
  | dependency_audit
  | code_pattern_analysis
  | tech_debt_scan
  | security_review
  | architecture_review
  | best_practices_check
  | performance_analysis
  | dependency_updates
  | sota_alternatives
  | integration_opportunities
deriving DecidableEq, Repr

/-- The `.value` string of a `TaskType` member (used in generated task ids). -/
def taskTypeValue : TaskType → String
  | .file_structure_analysis => "file_structure_analysis"
  | .dependency_audit => "dependency_audit"
  | .code_pattern_analysis => "code_pattern_analysis"
  | .tech_debt_scan => "tech_debt_scan"
  | .security_review => "security_review"
  | .architecture_review => "architecture_review"
  | .best_practices_check => "best_practices_check"
  | .performance_analysis => "performance_analysis"
  | .dependency_updates => "dependency_updates"
  | .sota_alternatives => "sota_alternatives"
  | .integration_opportunities => "integration_opportunities"

/-- `models.FindingSeverity`. -/
inductive FindingSeverity where
  | critical
  | high
  | medium
  | low
  | info
deriving DecidableEq, Repr

/-- The `.value` string of a `FindingSeverity` member. -/
def severityValue : FindingSeverity → String
  | .critical => "critical"
  | .high => "high"
  | .medium => "medium"
  | .low => "low"
  | .info => "info"

/-- `FindingSeverity(s)` on a string: the member with that value, if any
(`ValueError` otherwise, see `findingSeverityOf`). -/
def severityOfString (s : String) : Option FindingSeverity :=
  if s = "critical" then some .critical
  else if s = "high" then some .high
  else if s = "medium" then some .medium
  else if s = "low" then some .low
  else if s = "info" then some .info
  else none

/-- `models.ResearchTask` exactly as shipped (models.py lines 63-91):
`project_path` is the path string and there is **no** `run_id` field,
although `task_queue.py` passes a `run_id=` keyword both when generating
tasks (line 140) and when reconstructing tasks from rows (line 286), and
the test suite dereferences `.run_id`.  A Python dataclass rejects unknown
keywords, so every such constructor call raises `TypeError`; the embedding
keeps the dataclass as shipped and models those calls as raising (see
`researchTaskRunIdTypeError`).  The `findings` list field (never set by
the queue) is omitted. -/
structure ResearchTask where
  id : String
  task_type : TaskType
  project_name : String
  project_path : String
  status : TaskStatus := .pending
  priority : Int := 0
  started_at : Option String := none
  completed_at : Option String := none
  model_used : Option String := none
  tokens_used : Int := 0
  raw_output : Option String := none
  error : Option String := none
deriving DecidableEq, Repr

/-- One row of the `tasks` table (schema in `TaskQueue._init_schema`), in
rowid order inside `QueueState.tasks`.  `tokens_used` is a nullable INTEGER
column (writes always store an integer). -/
structure TaskRow where
  id : String
  run_id : Option String
  task_type : TaskType
  project_name : String
  project_path : String
  status : TaskStatus
  priority : Int
  started_at : Option String
  completed_at : Option String
  model_used : Option String
  tokens_used : Option Int
  raw_output : Option String
  error : Option String
deriving DecidableEq, Repr

/-- The mutable state of a `TaskQueue`: the `tasks` table plus the
`current_run_id` attribute. -/
structure QueueState where
  tasks : List TaskRow
  current_run_id : Option String
deriving DecidableEq, Repr

/-- Python truthiness of an optional run id: `None` and `""` are falsy
(`if run_id:` / `if not self.current_run_id:` in `task_queue.py`). -/
def runIdTruthy : Option String → Bool
  | none => false
  | some s => s != ""

/-- `TaskQueue._resolve_run_id`: an explicit argument wins, otherwise the
queue's `current_run_id`. -/
def resolveRunId (q : QueueState) (run_id : Option String) : Option String :=
  match run_id with
  | some r => some r
  | none => q.current_run_id

/-- The relevant `NightshiftConfig` fields (`config.py`): the three task
category switches, all defaulting to `True`. -/
structure NightshiftConfig where
  enable_codebase_audit : Bool := true
  enable_enhancement_recommendations : Bool := true
  enable_tool_stack_research : Bool := true
deriving DecidableEq, Repr

/-- `config.ProjectConfig`: a project name and path. -/
structure ProjectConfig where
  name : String
  path : String
deriving DecidableEq, Repr

/-- The error raised whenever `task_queue.py` passes `run_id=` to the
shipped `models.ResearchTask` dataclass, which declares no such field
(models.py lines 63-91): Python dataclasses reject unknown keyword
arguments. -/
def researchTaskRunIdTypeError : String :=
  "TypeError: ResearchTask.__init__ got an unexpected keyword argument run_id"

/-- `TaskQueue.generate_tasks_for_project`.  Raises
`RuntimeError("No active run set. ...")` when `self.current_run_id` is
falsy.  Otherwise it builds the fixed `(task kind, priority)` lists per
enabled category and iterates them; the loop body constructs
`ResearchTask(..., run_id=self.current_run_id, ...)` (task_queue.py lines
135-142), which raises `TypeError` because the shipped dataclass has no
`run_id` field — so with at least one entry the call raises at the first
iteration, before any `_save_task` write, and with every category disabled
the loop never runs and the empty list is returned.  Returns the
raised-or-returned value together with the resulting table state (unchanged
in every path).  The `uid` argument supplies the `uuid4().hex[:8]` fragments
evaluated for the id f-string before the constructor raises. -/
def generate_tasks_for_project (q : QueueState) (config : NightshiftConfig)
    (_project : ProjectConfig) (_uid : Nat → String) :
    Except String (List ResearchTask) × QueueState :=
  if !runIdTruthy q.current_run_id then
    (.error "No active run set. Call create_run() before generating tasks.", q)
  else
    let audit_tasks : List (TaskType × Int) :=
      [(.file_structure_analysis, 1), (.dependency_audit, 2),
       (.code_pattern_analysis, 3), (.tech_debt_scan, 4), (.security_review, 5)]
    let enhancement_tasks : List (TaskType × Int) :=
      [(.architecture_review, 6), (.best_practices_check, 7),
       (.performance_analysis, 8)]
    let research_tasks : List (TaskType × Int) :=
      [(.dependency_updates, 9), (.sota_alternatives, 10),
       (.integration_opportunities, 11)]
    let all_task_types : List (TaskType × Int) :=
      (if config.enable_codebase_audit then audit_tasks else []) ++
      (if config.enable_enhancement_recommendations then enhancement_tasks else []) ++
      (if config.enable_tool_stack_research then research_tasks else [])
    match all_task_types with
    | [] => (.ok [], q)
    | _ :: _ => (.error researchTaskRunIdTypeError, q)

/-- First element of a list attaining the minimal key, scanning left to
right (`none` exactly on the empty list). -/
def firstMinBy {α : Type} (key : α → Int) : List α → Option α
  | [] => none
  | r :: rs =>
    match firstMinBy key rs with
    | none => some r
    | some m => if key m < key r then some m else some r

/-- `SELECT ... ORDER BY priority ASC LIMIT 1` over a row list: the first
row attaining the minimal priority (ties between equal priorities are
unspecified in SQLite; keeping the earliest row is one legal refinement,
and the theorems below depend on tie order only where the minimum is
unique). -/
def pickFirstMin : List TaskRow → Option TaskRow :=
  firstMinBy (fun r => r.priority)

/-- `TaskQueue._row_to_task` (task_queue.py lines 280-295): its
`ResearchTask(...)` call passes the `run_id=` keyword unconditionally (the
`if "run_id" in row.keys() else None` conditional only selects the value,
line 286), and the shipped dataclass declares no `run_id` field, so the
call raises `TypeError` for **every** row: no row can ever be converted to
a task. -/
def rowToTask (_row : TaskRow) : Except String ResearchTask :=
  .error researchTaskRunIdTypeError

/-- `TaskQueue.get_next_pending_task`: resolve the run id; when it is truthy
the SELECT filters pending rows of that run, otherwise all pending rows;
the first row of minimal priority is passed to `_row_to_task` — which
raises `TypeError` on every row (see `rowToTask`) — and an empty selection
returns `None`. -/
def get_next_pending_task (q : QueueState) (run_id : Option String) :
    Except String (Option ResearchTask) :=
  let active := resolveRunId q run_id
  let rows :=
    if runIdTruthy active then
      q.tasks.filter (fun r => decide (r.status = .pending ∧ r.run_id = active))
    else
      q.tasks.filter (fun r => decide (r.status = .pending))
  match pickFirstMin rows with
  | some row =>
    match rowToTask row with
    | .ok task => .ok (some task)
    | .error e => .error e
  | none => .ok none

/-- `TaskQueue.mark_in_progress`: unguarded
`UPDATE tasks SET status='in_progress', started_at=?, model_used=? WHERE id=?`. -/
def mark_in_progress (db : List TaskRow) (task_id model now : String) :
    List TaskRow :=
  db.map fun r =>
    if r.id = task_id then
      { r with status := .in_progress, started_at := some now,
               model_used := some model }
    else r

/-- `TaskQueue.mark_completed`: unguarded
`UPDATE tasks SET status='completed', completed_at=?, tokens_used=?, raw_output=? WHERE id=?`. -/
def mark_completed (db : List TaskRow) (task_id : String) (tokens_used : Int)
    (raw_output now : String) : List TaskRow :=
  db.map fun r =>
    if r.id = task_id then
      { r with status := .completed, completed_at := some now,
               tokens_used := some tokens_used, raw_output := some raw_output }
    else r

/-- `TaskQueue.mark_failed`: unguarded
`UPDATE tasks SET status='failed', completed_at=?, error=? WHERE id=?`. -/
def mark_failed (db : List TaskRow) (task_id error now : String) :
    List TaskRow :=
  db.map fun r =>
    if r.id = task_id then
      { r with status := .failed, completed_at := some now, error := some error }
    else r

/-- A status-changing `TaskQueue` operation (the three UPDATE methods). -/
inductive QueueOp where
  | markInProgress (task_id model now : String)
  | markCompleted (task_id : String) (tokens_used : Int) (raw_output now : String)
  | markFailed (task_id error now : String)

/-- Apply one operation to the `tasks` table. -/
def applyOp (db : List TaskRow) : QueueOp → List TaskRow
  | .markInProgress task_id model now => mark_in_progress db task_id model now
  | .markCompleted task_id tokens raw now => mark_completed db task_id tokens raw now
  | .markFailed task_id err now => mark_failed db task_id err now

/-- Apply a sequence of operations left to right. -/
def applyOps (db : List TaskRow) (ops : List QueueOp) : List TaskRow :=
  ops.foldl applyOp db

/-- Reloading one task from the store: `SELECT * FROM tasks WHERE id = ?`
(the first matching row in scan order) passed through `_row_to_task`, which
raises `TypeError` on every row. -/
def loadTask (db : List TaskRow) (task_id : String) :
    Except String (Option ResearchTask) :=
  match db.find? fun r => decide (r.id = task_id) with
  | some row =>
    match rowToTask row with
    | .ok task => .ok (some task)
    | .error e => .error e
  | none => .ok none

/-- `TaskQueue.update_task_priorities`, unfolded: for
`enumerate(ordered_tasks, start=1)` run
`UPDATE tasks SET priority = ? WHERE id = ?`; `i` is the number of tasks
already processed, so the written priority is `i + 1`. -/
def updRows (db : List TaskRow) : List ResearchTask → Nat → List TaskRow
  | [], _ => db
  | t :: ts, i =>
    updRows
      (db.map fun r => if r.id = t.id then { r with priority := (i : Int) + 1 } else r)
      ts (i + 1)

/-- `TaskQueue.update_task_priorities`: rewrite the stored priorities to the
positions (1-based) of `ordered_tasks`, and mutate the passed task objects'
`priority` fields likewise (returned as the second component). -/
def update_task_priorities (q : QueueState) (ordered_tasks : List ResearchTask) :
    QueueState × List ResearchTask :=
  ({ q with tasks := updRows q.tasks ordered_tasks 0 },
   ordered_tasks.enum.map fun p => { p.2 with priority := (p.1 : Int) + 1 })

/-- `config.ModelConfig`: provider, model id and failover priority (the
unused `rate_limited_until` field is omitted; cooldowns live in the
manager's `_rate_limit_until` dict). -/
structure ModelConfig where
  provider : String
  model_id : String
  priority : Int := 0
deriving DecidableEq, Repr

/-- `ModelFailoverManager.get_model_key`: `f"{provider}/{model_id}"`. -/
def get_model_key (m : ModelConfig) : String :=
  m.provider ++ "/" ++ m.model_id

/-- `ModelFailoverManager`: the model chain plus the `_rate_limit_until`
dict (insertion-ordered association list from model key to the cooldown
horizon; instants are integers, see the header). -/
structure ModelFailoverManager where
  models : List ModelConfig
  rate_limit_until : List (String × Int) := []
deriving DecidableEq, Repr

/-- `self._rate_limit_until.get(key, 0)`. -/
def rateLimitLookup (rl : List (String × Int)) (key : String) : Int :=
  match rl.find? (fun p => decide (p.1 = key)) with
  | some p => p.2
  | none => 0

/-- `ModelFailoverManager.get_available_model` at instant `now` (the
periodic `_check_quota_refresh` pruning is factored out, see
`check_quota_refresh` and `get_available_model_check_quota_refresh`):
`sorted(self.models, key=lambda m: m.priority)` — Python's stable ascending
sort — scanned for the first model whose cooldown horizon lies strictly in
the past (`now > rate_limited_until`, absent entries defaulting to 0). -/
def get_available_model (mgr : ModelFailoverManager) (now : Int) :
    Option ModelConfig :=
  let sorted_models :=
    mgr.models.mergeSort (fun a b => decide (a.priority ≤ b.priority))
  sorted_models.find? (fun m =>
    decide (now > rateLimitLookup mgr.rate_limit_until (get_model_key m)))

/-- `ModelFailoverManager.mark_rate_limited`: set the cooldown horizon to
`time.time() + retry_after_seconds` (dict assignment: overwrite in place if
the key exists, else append). -/
def mark_rate_limited (mgr : ModelFailoverManager) (model : ModelConfig)
    (now : Int) (retry_after_seconds : Int := 3600) : ModelFailoverManager :=
  let key := get_model_key model
  let horizon := now + retry_after_seconds
  if (mgr.rate_limit_until.find? (fun p => decide (p.1 = key))).isSome then
    { mgr with rate_limit_until :=
        mgr.rate_limit_until.map fun p => if p.1 = key then (p.1, horizon) else p }
  else
    { mgr with rate_limit_until := mgr.rate_limit_until ++ [(key, horizon)] }

/-- `ModelFailoverManager.mark_available`: delete the model's cooldown entry
if present. -/
def mark_available (mgr : ModelFailoverManager) (model : ModelConfig) :
    ModelFailoverManager :=
  { mgr with rate_limit_until :=
      mgr.rate_limit_until.filter fun p => !decide (p.1 = get_model_key model) }

/-- `ModelFailoverManager._check_quota_refresh`: drop every cooldown entry
whose horizon is strictly in the past. -/
def check_quota_refresh (mgr : ModelFailoverManager) (now : Int) :
    ModelFailoverManager :=
  { mgr with rate_limit_until :=
      mgr.rate_limit_until.filter fun p => !decide (now > p.2) }

/-- Spec-side definition, from the spec's words only (for the refinement
claim C6): "sorts candidates by ascending priority number; returns the
first whose cooldown-until timestamp is in the past (or unset)", i.e. the
available model with the lowest priority number, ties broken by insertion
order — the first element of the available sublist attaining the minimal
priority. -/
def lowestPriorityAvailable (models : List ModelConfig)
    (available : ModelConfig → Bool) : Option ModelConfig :=
  firstMinBy (fun m => m.priority) (models.filter available)

/-- Spec-side availability, from the spec's words: the model's
"cooldown-until timestamp is in the past (or unset)". -/
def specAvailable (rl : List (String × Int)) (now : Int) (m : ModelConfig) :
    Bool :=
  match rl.find? (fun p => decide (p.1 = get_model_key m)) with
  | some p => decide (now > p.2)
  | none => true

/-- `prioritization.TASK_IMPACT_SCORES` (`dict.get(task_type, 50)` — the
dict covers all eleven kinds, so the default never fires). -/
def TASK_IMPACT_SCORES : TaskType → ℚ
  | .security_review => 100
  | .dependency_audit => 90
  | .architecture_review => 85
  | .tech_debt_scan => 75
  | .code_pattern_analysis => 70
  | .performance_analysis => 65
  | .best_practices_check => 60
  | .dependency_updates => 55
  | .sota_alternatives => 50
  | .file_structure_analysis => 40
  | .integration_opportunities => 35

/-- `prioritization.get_task_category`. -/
def get_task_category : TaskType → String
  | .security_review => "security"
  | .dependency_audit => "dependencies"
  | .dependency_updates => "dependencies"
  | .architecture_review => "architecture"
  | .code_pattern_analysis => "architecture"
  | _ => "other"

/-- `prioritization.PriorityMode`: a display name and the per-category
multipliers.  Weights are exact rationals; the mode exercised by the claims
(`security_first`, weights 2.0 / 1.5 / 1.0 / 0.5) uses only dyadic values,
for which the source's float products of integer impact scores are exact,
so rational and float comparisons agree. -/
structure PriorityMode where
  name : String
  weights : List (String × ℚ)

/-- The `"security_first"` entry of `PRIORITY_MODES` (weights 2.0, 1.5,
1.0, 0.5). -/
def securityFirstMode : PriorityMode :=
  { name := "Security First",
    weights := [("security", 2), ("dependencies", 3/2),
                ("architecture", 1), ("other", 1/2)] }

/-- `prioritization.PRIORITY_MODES`. -/
def PRIORITY_MODES : List (String × PriorityMode) :=
  [("security_first", securityFirstMode),
   ("balanced",
    { name := "Balanced",
      weights := [("security", 6/5), ("dependencies", 11/10),
                  ("architecture", 1), ("other", 1)] }),
   ("research_heavy",
    { name := "Research Heavy",
      weights := [("security", 4/5), ("dependencies", 1),
                  ("architecture", 1), ("other", 3/2)] }),
   ("quick_scan",
    { name := "Quick Scan",
      weights := [("security", 3/2), ("dependencies", 6/5),
                  ("architecture", 1/2), ("other", 3/10)] })]

/-- Association-list lookup standing for Python `dict.get`. -/
def dictGet {α : Type} (d : List (String × α)) (key : String) : Option α :=
  match d.find? (fun p => decide (p.1 = key)) with
  | some p => some p.2
  | none => none

/-- `priority_mode.weights.get(category, 1.0)`. -/
def weightFor (pm : PriorityMode) (category : String) : ℚ :=
  match dictGet pm.weights category with
  | some w => w
  | none => 1

/-- The final score of one task in a mode:
`base_score * weight` with `base_score = TASK_IMPACT_SCORES.get(...)` and
`weight = mode.weights.get(get_task_category(...), 1.0)`. -/
def taskScore (pm : PriorityMode) (t : ResearchTask) : ℚ :=
  TASK_IMPACT_SCORES t.task_type * weightFor pm (get_task_category t.task_type)

/-- `prioritization.TOKEN_COST_ESTIMATES` (with the `.get(..., 5000)`
default made explicit; the dict covers all kinds). -/
def TOKEN_COST_ESTIMATES : TaskType → Int
  | .file_structure_analysis => 2000
  | .dependency_audit => 3000
  | .code_pattern_analysis => 8000
  | .tech_debt_scan => 6000
  | .security_review => 10000
  | .architecture_review => 12000
  | .best_practices_check => 5000
  | .performance_analysis => 7000
  | .dependency_updates => 4000
  | .sota_alternatives => 6000
  | .integration_opportunities => 5000

/-- The token-budget selection loop of `prioritize_tasks` (greedy over the
score-sorted list). -/
def budgetSelect : List (ResearchTask × ℚ) → Int → List ResearchTask
  | [], _ => []
  | (t, _) :: rest, remaining =>
    let cost := TOKEN_COST_ESTIMATES t.task_type
    if remaining ≥ cost then t :: budgetSelect rest (remaining - cost)
    else budgetSelect rest remaining

/-- `SmartPrioritizer.prioritize_tasks` for a `SmartPrioritizer(mode,
token_budget)`: look the mode up (falling back to `balanced`), score every
task, sort by descending score — `list.sort(key=..., reverse=True)` is
stable, modelled by `mergeSort` with the reversed comparison — then either
greedily select under the token budget (`if self.token_budget:`, so `None`
and `0` skip the branch) or return the sorted tasks. -/
def prioritize_tasks (mode : String) (token_budget : Option Int)
    (tasks : List ResearchTask) : List ResearchTask :=
  let priority_mode :=
    match dictGet PRIORITY_MODES mode with
    | some pm => pm
    | none =>
      match dictGet PRIORITY_MODES "balanced" with
      | some pm => pm
      | none => { name := "Balanced", weights := [] }
  let scored_tasks := tasks.map fun t => (t, taskScore priority_mode t)
  let sorted_scored :=
    scored_tasks.mergeSort (fun a b => decide (b.2 ≤ a.2))
  match token_budget with
  | some b => if b ≠ 0 then budgetSelect sorted_scored b
              else sorted_scored.map (fun p => p.1)
  | none => sorted_scored.map (fun p => p.1)

/-- A parsed JSON value, the possible results of `json.loads` (numbers
collapsed to an integer/decimal pair is irrelevant here and elided to `ℚ`;
`json.loads` keeps the last of duplicate object keys, and the objects the
development instantiates are duplicate-free). -/
inductive JVal where
  | null
  | bool (b : Bool)
  | num (q : ℚ)
  | str (s : String)
  | arr (items : List JVal)
  | obj (fields : List (String × JVal))

/-- The Python exceptions that can escape the per-item `Finding`
construction in `_parse_findings`.  `valueError` and `keyError` are caught
by the handler (`json.JSONDecodeError` is a `ValueError` subclass but can
only arise inside `json.loads`, which is modelled by a `none` parse
outcome); `attributeError` (`.get` on a non-dict item) and `typeError`
(unhashable severity value in the `FindingSeverity` lookup) propagate.
`typeMismatch` is a model-only marker, see `findingOfItem`. -/
inductive PyErr where
  | valueError
  | keyError
  | attributeError
  | typeError
  | typeMismatch
deriving DecidableEq, Repr

/-- The exceptions the `except (json.JSONDecodeError, KeyError, ValueError)`
clause catches. -/
def caughtByParser : PyErr → Bool
  | .valueError => true
  | .keyError => true
  | _ => false

/-- `models.Finding` (the `references` and `metadata` fields, which the
claims never touch and `_parse_findings` leaves at their defaults, are
omitted). -/
structure Finding where
  id : String
  severity : FindingSeverity
  title : String
  description : String
  location : Option String := none
  recommendation : Option String := none
deriving DecidableEq, Repr

/-- `item.get(key)` on a JSON object. -/
def jget (fields : List (String × JVal)) (key : String) : Option JVal :=
  match fields.find? (fun p => decide (p.1 = key)) with
  | some p => some p.2
  | none => none

/-- `FindingSeverity(value)` on a JSON value: member lookup by value.
Strings not among the five member values, and hashable non-strings
(null/bool/number), raise `ValueError`; unhashable values (arrays/objects)
raise `TypeError` from the member-map lookup. -/
def findingSeverityOf : JVal → Except PyErr FindingSeverity
  | .str s =>
    match severityOfString s with
    | some sv => .ok sv
    | none => .error .valueError
  | .arr _ => .error .typeError
  | .obj _ => .error .typeError
  | _ => .error .valueError

/-- Read an optional-string field of an item (`location`,
`recommendation`): absent or JSON null map to `None`, strings to
themselves.  A non-string value would be stored untyped by the Python
dataclass; the typed model flags it with the model-only `typeMismatch`
marker instead, and every statement below stays within string-or-null
payloads. -/
def jOptStr : Option JVal → Except PyErr (Option String)
  | none => .ok none
  | some .null => .ok none
  | some (.str s) => .ok (some s)
  | some _ => .error .typeMismatch

/-- Read a string field with a default (`title` with `"Untitled"`,
`description` with `""`): same `typeMismatch` proviso as `jOptStr`. -/
def jStrD (v : Option JVal) (dflt : String) : Except PyErr String :=
  match v with
  | none => .ok dflt
  | some (.str s) => .ok s
  | some _ => .error .typeMismatch

/-- The `Finding(...)` construction for one list item in
`_parse_findings`: `item.get` calls require a dict (`AttributeError`
otherwise), the severity defaults to `"info"` and is validated by the
`FindingSeverity` lookup, the remaining fields are copied with their
defaults.  `fid` is the value of the `f"finding_{uuid4().hex[:8]}"`
expression. -/
def findingOfItem (fid : String) : JVal → Except PyErr Finding
  | .obj fields => do
    let severity ← findingSeverityOf ((jget fields "severity").getD (.str "info"))
    let title ← jStrD (jget fields "title") "Untitled"
    let description ← jStrD (jget fields "description") ""
    let location ← jOptStr (jget fields "location")
    let recommendation ← jOptStr (jget fields "recommendation")
    .ok { id := fid, severity := severity, title := title,
          description := description, location := location,
          recommendation := recommendation }
  | _ => .error .attributeError

/-- The fallback finding the handler appends: info severity, title
`"Raw Analysis Output"`, description `result[:2000] if result else
"No output"`. -/
def rawWrapFinding (fid : String) (result : String) : Finding :=
  { id := fid
    severity := .info
    title := "Raw Analysis Output"
    description := if result = "" then "No output" else result.take 2000 }

/-- The item loop of `_parse_findings`: convert items in order, appending
each finding; on a caught exception append the raw-output fallback to the
findings accumulated so far and return; let other exceptions propagate. -/
def parseFindingsLoop (uid : Nat → String) (result : String) :
    List JVal → List Finding → Except PyErr (List Finding)
  | [], acc => .ok acc
  | item :: rest, acc =>
    match findingOfItem (uid acc.length) item with
    | .ok f => parseFindingsLoop uid result rest (acc ++ [f])
    | .error e =>
      if caughtByParser e then .ok (acc ++ [rawWrapFinding (uid acc.length) result])
      else .error e

/-- `NightshiftRunner._parse_findings` on agent output `result`, with the
outcome of `json.loads(result)` passed explicitly (`none` models
`json.JSONDecodeError`, which the handler catches, yielding exactly the
fallback finding).  A successfully parsed value that is not a list skips
the loop (`isinstance(data, list)` fails) and the initial empty `findings`
list is returned.  `uid k` supplies the uuid fragmentless id of the k-th
finding created. -/
def parse_findings (uid : Nat → String) (loaded : Option JVal)
    (result : String) : Except PyErr (List Finding) :=
  match loaded with
  | none => .ok [rawWrapFinding (uid 0) result]
  | some data =>
    match data with
    | .arr items => parseFindingsLoop uid result items []
    | _ => .ok []

/-- `diff_report.FindingDiff`. -/
structure FindingDiff where
  new_findings : List Finding
  fixed_findings : List Finding
  persistent_findings : List Finding
deriving DecidableEq, Repr

/-- One record of `history["runs"]` in `finding_history.json`. -/
structure RunRecord where
  run_id : String
  timestamp : String
  finding_signatures : List String
deriving DecidableEq, Repr

/-- The per-signature entry of `history["findings"]`: bookkeeping plus the
stored `finding_data` (whose keys `record_run` always writes, so the typed
record needs no `.get` defaults). -/
structure FindingHistoryEntry where
  first_seen : String
  last_seen : String
  occurrences : Int
  fd_title : String
  fd_severity : FindingSeverity
  fd_description : String
  fd_location : Option String
  fd_recommendation : Option String
deriving DecidableEq, Repr

/-- The finding-history file: the append-only run log and the
insertion-ordered signature dict. -/
structure History where
  runs : List RunRecord
  findings : List (String × FindingHistoryEntry)
deriving DecidableEq, Repr

/-- The empty history `_load_history` returns when the file is absent. -/
def emptyHistory : History := { runs := [], findings := [] }

/-- `DiffReportGenerator._finding_signature`:
`f"{title}|{location or 'global'}|{severity.value}"` (an empty or absent
location is falsy, hence `'global'`). -/
def finding_signature (f : Finding) : String :=
  f.title ++ "|" ++
  (match f.location with
   | some loc => if loc = "" then "global" else loc
   | none => "global") ++ "|" ++
  severityValue f.severity

/-- The `history["findings"]` dict update of `record_run` for one finding:
insert a fresh entry (occurrences 1, both timestamps `now`) or update the
existing one in place (`last_seen`, `occurrences += 1`). -/
def recordFindingEntry (findings : List (String × FindingHistoryEntry))
    (now : String) (f : Finding) : List (String × FindingHistoryEntry) :=
  let sig := finding_signature f
  if (findings.find? (fun p => decide (p.1 = sig))).isSome then
    findings.map fun p =>
      if p.1 = sig then
        (p.1, { p.2 with last_seen := now, occurrences := p.2.occurrences + 1 })
      else p
  else
    findings ++ [(sig,
      { first_seen := now, last_seen := now, occurrences := 1,
        fd_title := f.title, fd_severity := f.severity,
        fd_description := f.description, fd_location := f.location,
        fd_recommendation := f.recommendation })]

/-- `DiffReportGenerator.record_run` at wall-clock string `now`: append the
run record (id, timestamp, the signatures of the findings in order), cap the
log at the most recent 30 runs, then fold the findings into the signature
dict. -/
def record_run (h : History) (run_id : String) (findings : List Finding)
    (now : String) : History :=
  let runs := h.runs ++
    [{ run_id := run_id, timestamp := now,
       finding_signatures := findings.map finding_signature }]
  let runs := if runs.length > 30 then runs.drop (runs.length - 30) else runs
  { runs := runs, findings := findings.foldl (recordFindingEntry · now ·) h.findings }

/-- The `{sig(f): f for f in current_findings}` comprehension: an
insertion-ordered map where a repeated signature overwrites the stored
finding but keeps its original position. -/
def currentSigsDict (fs : List Finding) : List (String × Finding) :=
  fs.foldl (fun acc f =>
    let sig := finding_signature f
    if (acc.find? (fun p => decide (p.1 = sig))).isSome then
      acc.map fun p => if p.1 = sig then (p.1, f) else p
    else acc ++ [(sig, f)]) []

/-- `DiffReportGenerator.compute_diff`.  With no recorded runs everything is
new.  A truthy `compare_to_run_id` selects the run record **with that id**
(`next(r for r in history["runs"] if r["run_id"] == compare_to_run_id)`);
otherwise the last recorded run is the baseline (`history["runs"][-1]`).  A
missing baseline again makes everything new.  Current findings are split by
signature membership in the baseline's signature set; baseline signatures
absent from the current set are reconstructed from the stored
`finding_data` into fixed findings with id `f"fixed_{sig[:8]}"`.  (The
source iterates the `previous_sigs` *set*, whose order Python leaves
unspecified; the model iterates the baseline's signature list deduplicated
to first occurrences, one legal refinement — the claims below only involve
duplicate-free signature lists.) -/
def compute_diff (h : History) (current_findings : List Finding)
    (compare_to_run_id : Option String) : FindingDiff :=
  if h.runs = [] then
    { new_findings := current_findings, fixed_findings := [],
      persistent_findings := [] }
  else
    let previous_run : Option RunRecord :=
      if runIdTruthy compare_to_run_id then
        h.runs.find? (fun r => decide (some r.run_id = compare_to_run_id))
      else
        h.runs.getLast?
    match previous_run with
    | none =>
      { new_findings := current_findings, fixed_findings := [],
        persistent_findings := [] }
    | some prev =>
      let previous_sigs := prev.finding_signatures
      let current_sigs := currentSigsDict current_findings
      let new_findings := (current_sigs.filter
        (fun p => !previous_sigs.contains p.1)).map (fun p => p.2)
      let persistent_findings := (current_sigs.filter
        (fun p => previous_sigs.contains p.1)).map (fun p => p.2)
      let fixed_findings :=
        (previous_sigs.eraseDups.filter (fun sig =>
          !(current_sigs.map (fun p => p.1)).contains sig)).filterMap
          (fun sig =>
            match dictGet h.findings sig with
            | some entry => some
                { id := "fixed_" ++ sig.take 8
                  severity := entry.fd_severity
                  title := entry.fd_title
                  description := entry.fd_description
                  location := entry.fd_location
                  recommendation := entry.fd_recommendation }
            | none => none)
      { new_findings := new_findings, fixed_findings := fixed_findings,
        persistent_findings := persistent_findings }

/-- Pointwise characterization of `updRows`: the final row produced for
`row` after the whole `update_task_priorities` loop (each pass `t` at
0-based position `i` rewrites the priority of rows with `t.id` to `i+1`;
later passes overwrite earlier ones, mirroring the successive UPDATEs). -/
def prioAssign : List ResearchTask → Nat → TaskRow → TaskRow
  | [], _, row => row
  | t :: ts, i, row =>
    prioAssign ts (i + 1)
      (if row.id = t.id then { row with priority := (i : Int) + 1 } else row)

/-- Convert a run of list items with the ids their creation order mints
(`uid start`, `uid (start+1)`, ...), failing on the first item whose
`Finding(...)` construction raises — the successful prefix of the
`_parse_findings` loop. -/
def convertItems (uid : Nat → String) (start : Nat) :
    List JVal → Except PyErr (List Finding)
  | [] => .ok []
  | item :: rest => do
    let f ← findingOfItem (uid start) item
    let fs ← convertItems uid (start + 1) rest
    .ok (f :: fs)

/-! Concrete instances used by counterexamples and witnesses. -/

/-- A pending task row belonging to run `runA`. -/
def leakRow : TaskRow :=
  { id := "a1", run_id := some "runA", task_type := .security_review,
    project_name := "demo", project_path := "/demo", status := .pending,
    priority := 1, started_at := none, completed_at := none,
    model_used := none, tokens_used := some 0, raw_output := none,
    error := none }

/-- A queue holding `leakRow` with **no** current run context. -/
def leakQueue : QueueState := { tasks := [leakRow], current_run_id := none }

/-- A task row already in terminal `completed` status. -/
def doneRow : TaskRow :=
  { id := "c1", run_id := some "run1", task_type := .dependency_audit,
    project_name := "demo", project_path := "/demo", status := .completed,
    priority := 2, started_at := some "2026-01-01T00:00:00",
    completed_at := some "2026-01-01T01:00:00", model_used := some "openai/test",
    tokens_used := some 10, raw_output := some "[]", error := none }

/-- The priority-1 model of the failover scenario. -/
def scenarioP1 : ModelConfig := { provider := "google", model_id := "m1", priority := 1 }

/-- The priority-2 model of the failover scenario. -/
def scenarioP2 : ModelConfig := { provider := "openai", model_id := "m2", priority := 2 }

/-- Failover manager with `p1` rate-limited until instant 1100 (`t + 100`
for `t = 1000`) and `p2` unrestricted. -/
def scenarioMgr : ModelFailoverManager :=
  { models := [scenarioP1, scenarioP2],
    rate_limit_until := [("google/m1", 1100)] }

/-- The finding of the first recorded run of the diff scenario (mirrors
`test_diff_uses_previous_run_for_default_baseline`). -/
def firstIssue : Finding :=
  { id := "finding_first_issue", severity := .high, title := "First issue",
    description := "First issue description" }

/-- The finding of the second recorded run of the diff scenario. -/
def secondIssue : Finding :=
  { id := "finding_second_issue", severity := .high, title := "Second issue",
    description := "Second issue description" }

/-- History after recording run1 (with `firstIssue`) and run2 (with
`secondIssue`). -/
def twoRunHistory : History :=
  record_run (record_run emptyHistory "run1" [firstIssue] "t1")
    "run2" [secondIssue] "t2"

/-- The three task objects of the security_first scenario (constructed
without `run_id`, as the shipped dataclass requires). -/
def secScenarioTasks : List ResearchTask :=
  [{ id := "w1", task_type := .file_structure_analysis, project_name := "demo",
     project_path := "/demo", status := .pending, priority := 1 },
   { id := "w2", task_type := .security_review, project_name := "demo",
     project_path := "/demo", status := .pending, priority := 5 },
   { id := "w3", task_type := .dependency_audit, project_name := "demo",
     project_path := "/demo", status := .pending, priority := 2 }]

/-- The stored row of the scenario's file-structure task. -/
def secRow1 : TaskRow :=
  { id := "w1", run_id := some "run1", task_type := .file_structure_analysis,
    project_name := "demo", project_path := "/demo", status := .pending,
    priority := 1, started_at := none, completed_at := none,
    model_used := none, tokens_used := some 0, raw_output := none,
    error := none }

/-- The stored row of the scenario's security-review task. -/
def secRow2 : TaskRow :=
  { id := "w2", run_id := some "run1", task_type := .security_review,
    project_name := "demo", project_path := "/demo", status := .pending,
    priority := 5, started_at := none, completed_at := none,
    model_used := none, tokens_used := some 0, raw_output := none,
    error := none }

/-- The stored row of the scenario's dependency-audit task. -/
def secRow3 : TaskRow :=
  { id := "w3", run_id := some "run1", task_type := .dependency_audit,
    project_name := "demo", project_path := "/demo", status := .pending,
    priority := 2, started_at := none, completed_at := none,
    model_used := none, tokens_used := some 0, raw_output := none,
    error := none }

/-- The scenario's table: the three pending rows of run `run1`. -/
def secScenarioRows : List TaskRow := [secRow1, secRow2, secRow3]

/-! ## Shared helper lemmas -/

/-- A nonempty run id string is truthy. -/
theorem runIdTruthy_some {r : String} (h : r ≠ "") :
    runIdTruthy (some r) = true := by
  simp [runIdTruthy, h]

/-- `firstMinBy` returns `none` exactly on the empty list. -/
theorem firstMinBy_eq_none {α : Type} (key : α → Int) :
    ∀ l : List α, firstMinBy key l = none ↔ l = [] := by
  intro l
  cases l with
  | nil => simp [firstMinBy]
  | cons r rs =>
    simp only [firstMinBy]
    cases firstMinBy key rs with
    | none => simp
    | some m =>
      by_cases h : key m < key r <;> simp [h]

/-- Decomposition around the element `firstMinBy` picks: everything before
it has strictly larger key, everything after it has at least its key. -/
theorem firstMinBy_decomp {α : Type} (key : α → Int) :
    ∀ (l : List α) (m : α), firstMinBy key l = some m →
      ∃ pre post, l = pre ++ m :: post ∧ (∀ z ∈ pre, key m < key z) ∧
        (∀ z ∈ post, key m ≤ key z) := by
  intro l
  induction l with
  | nil => intro m h; simp [firstMinBy] at h
  | cons r rs ih =>
    intro m h
    simp only [firstMinBy] at h
    cases hrs : firstMinBy key rs with
    | none =>
      rw [hrs] at h
      obtain rfl : r = m := by simpa using h
      have : rs = [] := (firstMinBy_eq_none key rs).mp hrs
      subst this
      exact ⟨[], [], rfl, by simp, by simp⟩
    | some b =>
      rw [hrs] at h
      obtain ⟨pre, post, hsplit, hpre, hpost⟩ := ih b hrs
      by_cases hlt : key b < key r
      · obtain rfl : b = m := by simpa [hlt] using h
        refine ⟨r :: pre, post, by simp [hsplit], ?_, hpost⟩
        intro z hz
        rcases List.mem_cons.mp hz with rfl | hz
        · exact hlt
        · exact hpre z hz
      · obtain rfl : r = m := by simpa [hlt] using h
        refine ⟨[], rs, rfl, by simp, ?_⟩
        intro z hz
        have hble : key b ≤ key z := by
          rw [hsplit] at hz
          rcases List.mem_append.mp hz with hz | hz
          · exact le_of_lt (hpre z hz)
          · rcases List.mem_cons.mp hz with rfl | hz
            · exact le_refl _
            · exact hpost z hz
        exact le_trans (le_of_not_lt hlt) hble

/-- The element `firstMinBy` picks is a member of the list. -/
theorem firstMinBy_mem {α : Type} (key : α → Int) {l : List α} {m : α}
    (h : firstMinBy key l = some m) : m ∈ l := by
  obtain ⟨pre, post, hsplit, -, -⟩ := firstMinBy_decomp key l m h
  rw [hsplit]
  exact List.mem_append.mpr (Or.inr (List.mem_cons_self _ _))

/-- The element `firstMinBy` picks has minimal key. -/
theorem firstMinBy_min {α : Type} (key : α → Int) {l : List α} {m : α}
    (h : firstMinBy key l = some m) : ∀ z ∈ l, key m ≤ key z := by
  obtain ⟨pre, post, hsplit, hpre, hpost⟩ := firstMinBy_decomp key l m h
  intro z hz
  rw [hsplit] at hz
  rcases List.mem_append.mp hz with hz | hz
  · exact le_of_lt (hpre z hz)
  · rcases List.mem_cons.mp hz with rfl | hz
    · exact le_refl _
    · exact hpost z hz

/-! ## C8: task generation without an active run fails loudly -/

/-- C8: with no current run set, `generate_tasks_for_project` raises
`RuntimeError` (the "No active run set" message) and leaves the task table
untouched — it persists no tasks and never silently no-ops. -/
theorem generate_without_run_raises :
    ∀ (q : QueueState) (config : NightshiftConfig) (project : ProjectConfig)
      (uid : Nat → String), q.current_run_id = none →
      generate_tasks_for_project q config project uid =
        (.error "No active run set. Call create_run() before generating tasks.", q) := by
  intro q config project uid h
  simp [generate_tasks_for_project, h, runIdTruthy]

/-- Witness for C8 at a concrete queue, configuration and project. -/
theorem generate_without_run_raises_witness :
    generate_tasks_for_project { tasks := [], current_run_id := none } {}
        { name := "demo", path := "/demo" } (fun _ => "u8") =
      (.error "No active run set. Call create_run() before generating tasks.",
       { tasks := [], current_run_id := none }) :=
  generate_without_run_raises _ _ _ _ rfl

/-! ## C5: task generation crashes on the missing run_id field -/

/-- C5 (evaluation at the failing input): with an active run and the
default all-enabled configuration, `generate_tasks_for_project` does not
return 11 tasks — the first `ResearchTask(..., run_id=...)` construction
raises `TypeError` because the shipped `models.ResearchTask` has no
`run_id` field, and nothing is persisted (the table is returned
unchanged).  The claim (and the repository's own test
`test_task_queue_scopes_to_current_run`, which expects 11 pending tasks
carrying `.run_id`) is the evident intent. -/
theorem generate_tasks_raises_type_error :
    generate_tasks_for_project { tasks := [], current_run_id := some "run1" }
        {} { name := "demo", path := "/demo" } (fun n => toString n) =
      (.error researchTaskRunIdTypeError,
       { tasks := [], current_run_id := some "run1" }) := rfl

/-! ## C1: the dequeue can never return a task -/

/-- C1 (evaluation at the failing input): `get_next_pending_task` can never
return a task at all — whenever the SELECT finds a pending row,
`_row_to_task` raises `TypeError` (the shipped `ResearchTask` rejects the
`run_id=` keyword), and otherwise the result is `None`; in particular it
raises on a queue whose context is set to `runA` holding `runA`'s pending
task, where the claim (and the repository's test
`test_task_queue_scopes_to_current_run`, which reads `.run_id` off the
returned task) expects that task back.  Moreover, at the SQL level the
claim's "(including when no current run context is set)" scoping is not
honored either: with no context the fallback SELECT has no run filter, and
the row it picks on `leakQueue` belongs to run `runA` even though the
queue has no current run. -/
theorem get_next_pending_task_raises_type_error :
    (∀ (q : QueueState) (run_id : Option String),
      get_next_pending_task q run_id = .ok none ∨
      get_next_pending_task q run_id = .error researchTaskRunIdTypeError) ∧
    get_next_pending_task { tasks := [leakRow], current_run_id := some "runA" }
      none = .error researchTaskRunIdTypeError ∧
    (leakQueue.current_run_id = none ∧
     pickFirstMin (leakQueue.tasks.filter
       (fun r => decide (r.status = .pending))) = some leakRow ∧
     leakRow.run_id = some "runA") := by
  refine ⟨?_, rfl, rfl, rfl, rfl⟩
  intro q run_id
  simp only [get_next_pending_task]
  cases pickFirstMin
      (if runIdTruthy (resolveRunId q run_id) then
        q.tasks.filter
          (fun r => decide (r.status = .pending ∧ r.run_id = resolveRunId q run_id))
      else
        q.tasks.filter (fun r => decide (r.status = .pending))) with
  | none => left; rfl
  | some row => right; rfl

/-! ## C2: monotonicity of task status -/

/-- C2 (counterexample): `mark_in_progress` is an unguarded UPDATE — applied
to the id of a task already in terminal `completed` status it moves the task
back to `in_progress`, so the claim's "no sequence of operations returns it
to pending **or in_progress**" fails as stated. -/
theorem mark_in_progress_reopens_completed :
    doneRow.status = .completed ∧
    (mark_in_progress [doneRow] "c1" "openai/test" "2026-01-02T00:00:00").map
        (fun r => r.status) = [.in_progress] := by
  decide

/-- Any row of any single status-changing operation's result either keeps
its previous status or leaves `pending` (the operations only ever write
`in_progress`, `completed` or `failed`). -/
theorem applyOp_pending {db : List TaskRow} {op : QueueOp} {r' : TaskRow}
    (h : r' ∈ applyOp db op) (hp : r'.status = .pending) :
    ∃ r ∈ db, r.id = r'.id ∧ r.status = .pending := by
  cases op with
  | markInProgress task_id model now =>
    simp only [applyOp, mark_in_progress] at h
    obtain ⟨r, hr, hfr⟩ := List.mem_map.mp h
    by_cases hid : r.id = task_id
    · rw [if_pos hid] at hfr
      rw [← hfr] at hp
      simp at hp
    · rw [if_neg hid] at hfr
      subst hfr
      exact ⟨r, hr, rfl, hp⟩
  | markCompleted task_id tokens raw now =>
    simp only [applyOp, mark_completed] at h
    obtain ⟨r, hr, hfr⟩ := List.mem_map.mp h
    by_cases hid : r.id = task_id
    · rw [if_pos hid] at hfr
      rw [← hfr] at hp
      simp at hp
    · rw [if_neg hid] at hfr
      subst hfr
      exact ⟨r, hr, rfl, hp⟩
  | markFailed task_id err now =>
    simp only [applyOp, mark_failed] at h
    obtain ⟨r, hr, hfr⟩ := List.mem_map.mp h
    by_cases hid : r.id = task_id
    · rw [if_pos hid] at hfr
      rw [← hfr] at hp
      simp at hp
    · rw [if_neg hid] at hfr
      subst hfr
      exact ⟨r, hr, rfl, hp⟩

/-- C2 (amended): no sequence of the status-changing `TaskQueue` operations
(`mark_in_progress`, `mark_completed`, `mark_failed`) ever returns a task to
`pending`: every pending row after the sequence descends unchanged in status
from a pending row of the initial table with the same id.  In particular a
completed or failed task is never reopened to pending — although, per the
counterexample, `mark_in_progress` applied to its id does move it back to
`in_progress`, the UPDATE being unguarded. -/
theorem queue_ops_never_write_pending :
    ∀ (ops : List QueueOp) (db : List TaskRow) (r' : TaskRow),
      r' ∈ applyOps db ops → r'.status = .pending →
      ∃ r ∈ db, r.id = r'.id ∧ r.status = .pending := by
  intro ops
  induction ops with
  | nil =>
    intro db r' h hp
    exact ⟨r', by simpa [applyOps] using h, rfl, hp⟩
  | cons op rest ih =>
    intro db r' h hp
    have h' : r' ∈ applyOps (applyOp db op) rest := by
      simpa [applyOps] using h
    obtain ⟨rm, hrm, hidm, hrmp⟩ := ih (applyOp db op) r' h' hp
    obtain ⟨r0, hr0, hid0, hr0p⟩ := applyOp_pending hrm hrmp
    exact ⟨r0, hr0, hid0.trans hidm, hr0p⟩

/-- Witness for C2's amended theorem on a one-row table and a two-operation
sequence that leaves the pending row untouched. -/
theorem queue_ops_never_write_pending_witness :
    ∃ r ∈ [({ id := "p1", run_id := some "run1",
              task_type := TaskType.tech_debt_scan, project_name := "demo",
              project_path := "/demo", status := TaskStatus.pending,
              priority := 4, started_at := none, completed_at := none,
              model_used := none, tokens_used := some 0, raw_output := none,
              error := none } : TaskRow)],
      r.id = "p1" ∧ r.status = .pending := by
  have h := queue_ops_never_write_pending
    [.markFailed "zz" "boom" "t1", .markCompleted "zz" 5 "out" "t2"]
    [{ id := "p1", run_id := some "run1", task_type := TaskType.tech_debt_scan,
       project_name := "demo", project_path := "/demo",
       status := TaskStatus.pending, priority := 4, started_at := none,
       completed_at := none, model_used := none, tokens_used := some 0,
       raw_output := none, error := none }]
    { id := "p1", run_id := some "run1", task_type := TaskType.tech_debt_scan,
      project_name := "demo", project_path := "/demo",
      status := TaskStatus.pending, priority := 4, started_at := none,
      completed_at := none, model_used := none, tokens_used := some 0,
      raw_output := none, error := none }
    (by decide) (by decide)
  exact h

/-! ## C9: the mark_completed round trip crashes on reload -/

/-- C9 (evaluation at the failing input): the write half of the round trip
works — `mark_completed` stores status `completed`, the completion
timestamp, the token count and the raw output in the row — but reloading
the task crashes: `_row_to_task` passes `run_id=` to the shipped
`ResearchTask` dataclass and raises `TypeError`, so the reloaded task the
claim describes is never produced. -/
theorem mark_completed_reload_raises_type_error :
    (mark_completed [doneRow] "c1" 42 "out" "2026-02-03T04:05:06").map
        (fun r => (r.status, r.completed_at, r.tokens_used, r.raw_output)) =
      [(.completed, some "2026-02-03T04:05:06", some 42, some "out")] ∧
    loadTask (mark_completed [doneRow] "c1" 42 "out" "2026-02-03T04:05:06")
      "c1" = .error researchTaskRunIdTypeError := by
  exact ⟨rfl, rfl⟩

/-! ## C4: wrapping of non-conforming agent output -/

/-- C4 (counterexample): `json.loads("{}")` succeeds with the empty JSON
object, which is not a list, so `_parse_findings` skips the item loop and
returns the **empty** finding list for this non-conforming output — no
synthesized info finding, the output is dropped silently, contrary to the
claim. -/
theorem parse_findings_nonlist_drops_output :
    parse_findings (fun n => toString n) (some (JVal.obj [])) "{}" =
      .ok [] := rfl

/-- C4 (amended): when the agent output fails to parse as JSON at all,
`_parse_findings` returns exactly one synthesized info-severity finding
whose description is the first 2000 characters of the raw text (or the
placeholder `"No output"` when the text is empty); however, output that
parses as JSON but is **not** a list yields the empty finding list, so such
non-conforming output is dropped silently. -/
theorem parse_findings_wraps_raw :
    ∀ (uid : Nat → String) (result : String),
      (parse_findings uid none result =
        .ok [{ id := uid 0, severity := .info, title := "Raw Analysis Output",
               description :=
                 if result = "" then "No output" else result.take 2000 }]) ∧
      ∀ v : JVal, (∀ items, v ≠ JVal.arr items) →
        parse_findings uid (some v) result = .ok [] := by
  intro uid result
  constructor
  · rfl
  · intro v hv
    cases v with
    | arr items => exact absurd rfl (hv items)
    | null => rfl
    | bool b => rfl
    | num q => rfl
    | str s => rfl
    | obj fields => rfl

/-- Witness for C4's amended theorem: a decode failure wraps the raw text;
a JSON number is not a list and yields the empty list. -/
theorem parse_findings_wraps_raw_witness :
    (parse_findings (fun _ => "fid") none "oops" =
      .ok [{ id := "fid", severity := .info, title := "Raw Analysis Output",
             description :=
               if "oops" = "" then "No output" else String.take "oops" 2000 }]) ∧
    parse_findings (fun _ => "fid") (some (JVal.num 5)) "5" = .ok [] :=
  ⟨(parse_findings_wraps_raw (fun _ => "fid") "oops").1,
   (parse_findings_wraps_raw (fun _ => "fid") "5").2 (JVal.num 5)
     (fun _ h => by cases h)⟩

/-! ## C10: partial results are retained before the wrapper -/

/-- The `_parse_findings` loop on a list whose prefix converts cleanly and
whose next item raises a caught `ValueError`: the successfully converted
prefix is kept and the raw-output fallback appended after it. -/
theorem parseFindingsLoop_append (uid : Nat → String) (result : String) :
    ∀ (goodItems : List JVal) (goodFindings : List Finding)
      (acc : List Finding) (badItem : JVal) (rest : List JVal),
      convertItems uid acc.length goodItems = .ok goodFindings →
      findingOfItem (uid (acc.length + goodFindings.length)) badItem =
        .error .valueError →
      parseFindingsLoop uid result (goodItems ++ badItem :: rest) acc =
        .ok (acc ++ goodFindings ++
          [rawWrapFinding (uid (acc.length + goodFindings.length)) result]) := by
  intro goodItems
  induction goodItems with
  | nil =>
    intro gf acc bad rest hconv hbad
    obtain rfl : gf = [] := by simpa [convertItems] using hconv.symm
    simp only [List.nil_append, parseFindingsLoop, List.length_nil,
      Nat.add_zero] at hbad ⊢
    rw [hbad]
    simp [caughtByParser]
  | cons g gs ih =>
    intro gf acc bad rest hconv hbad
    cases hg : findingOfItem (uid acc.length) g with
    | error e => simp [convertItems, hg, Bind.bind, Except.bind] at hconv
    | ok f =>
      cases hgs : convertItems uid (acc.length + 1) gs with
      | error e => simp [convertItems, hg, hgs, Bind.bind, Except.bind] at hconv
      | ok fs =>
        obtain rfl : gf = f :: fs := by
          simpa [convertItems, hg, hgs, Bind.bind, Except.bind] using hconv.symm
        have hlen : (acc ++ [f]).length = acc.length + 1 := by simp
        have hbad' : findingOfItem
            (uid ((acc ++ [f]).length + fs.length)) bad = .error .valueError := by
          rw [hlen]
          have : acc.length + 1 + fs.length = acc.length + (f :: fs).length := by
            simp
            omega
          rw [this]
          exact hbad
        have hconv' : convertItems uid (acc ++ [f]).length gs = .ok fs := by
          rw [hlen]
          exact hgs
        have hrec := ih fs (acc ++ [f]) bad rest hconv' hbad'
        simp only [hlen] at hrec
        have harr : acc.length + 1 + fs.length = acc.length + (f :: fs).length := by
          simp [List.length_cons]
          omega
        rw [harr] at hrec
        calc parseFindingsLoop uid result ((g :: gs) ++ bad :: rest) acc
            = parseFindingsLoop uid result (gs ++ bad :: rest) (acc ++ [f]) := by
              simp only [List.cons_append, parseFindingsLoop, hg, List.append_eq]
          _ = .ok (acc ++ [f] ++ fs ++
                [rawWrapFinding (uid (acc.length + (f :: fs).length)) result]) := hrec
          _ = .ok (acc ++ (f :: fs) ++
                [rawWrapFinding (uid (acc.length + (f :: fs).length)) result]) := by
              simp

/-- C10: when the agent result parses as a JSON list whose prefix converts
to valid finding records but a later item raises `ValueError` (an invalid
severity value), `_parse_findings` returns the findings parsed before the
bad item followed by one additional info-severity "Raw Analysis Output"
finding wrapping the raw text — partial results are retained and the
wrapper is appended alongside them. -/
theorem parse_findings_partial_retention :
    ∀ (uid : Nat → String) (result : String) (goodItems : List JVal)
      (goodFindings : List Finding) (badItem : JVal) (rest : List JVal),
      convertItems uid 0 goodItems = .ok goodFindings →
      findingOfItem (uid goodFindings.length) badItem = .error .valueError →
      parse_findings uid (some (.arr (goodItems ++ badItem :: rest))) result =
        .ok (goodFindings ++
          [rawWrapFinding (uid goodFindings.length) result]) := by
  intro uid result goodItems goodFindings badItem rest hconv hbad
  have := parseFindingsLoop_append uid result goodItems goodFindings []
    badItem rest (by simpa using hconv) (by simpa using hbad)
  simpa [parse_findings] using this

/-- Witness for C10: one valid record, then an item with severity
`"urgent"` (not a member value, hence `ValueError`). -/
theorem parse_findings_partial_retention_witness :
    parse_findings (fun _ => "fid")
        (some (JVal.arr
          [JVal.obj [("severity", JVal.str "high"), ("title", JVal.str "T"),
                     ("description", JVal.str "D")],
           JVal.obj [("severity", JVal.str "urgent")]])) "RAW" =
      .ok ([{ id := "fid", severity := .high, title := "T", description := "D",
              location := none, recommendation := none }] ++
        [rawWrapFinding ((fun _ => "fid") 1) "RAW"]) :=
  parse_findings_partial_retention (fun _ => "fid") "RAW"
    [JVal.obj [("severity", JVal.str "high"), ("title", JVal.str "T"),
               ("description", JVal.str "D")]]
    [{ id := "fid", severity := .high, title := "T", description := "D",
       location := none, recommendation := none }]
    (JVal.obj [("severity", JVal.str "urgent")]) [] rfl rfl

/-! ## C3: diff baseline selection -/

/-- C3 (evaluation at the failing input): after recording run1 (signature of
`firstIssue`) and run2 (signature of `secondIssue`), `compute_diff` of
run2's own findings **with run id `run2`** compares against run2 itself —
the record **with** the given id, not the run immediately preceding it — so
everything is reported persistent and nothing new or fixed.  The claim (and
the repository's own test
`test_diff_uses_previous_run_for_default_baseline`, which calls
`compute_diff([finding2], current_run_id=run2)`) expects the baseline to be
the preceding run1, i.e. `new = [secondIssue]`, `fixed = [firstIssue]`,
`persistent = []`. -/
theorem compute_diff_baseline_is_named_run :
    compute_diff twoRunHistory [secondIssue] (some "run2") =
      { new_findings := [], fixed_findings := [],
        persistent_findings := [secondIssue] } := by
  decide

/-! ## C6: failover model selection

The equality between the implementation's scan of the stably sorted chain
and the spec's "lowest priority among available, ties by insertion order"
rests on three generic list lemmas: a decomposition of `find?`, a converse,
and a counting argument pinning the first match of a stably embedded
sublist. -/

/-- Decompose a successful `find?`: everything before the hit fails the
predicate. -/
theorem find?_decomp {α : Type} {p : α → Bool} :
    ∀ {l : List α} {y : α}, l.find? p = some y →
      ∃ pre post, l = pre ++ y :: post ∧ ∀ z ∈ pre, p z = false := by
  intro l
  induction l with
  | nil => intro y h; simp at h
  | cons x xs ih =>
    intro y h
    rw [List.find?_cons] at h
    cases hpx : p x with
    | true =>
      rw [hpx] at h
      obtain rfl : x = y := by simpa using h
      exact ⟨[], xs, rfl, by simp⟩
    | false =>
      rw [hpx] at h
      obtain ⟨pre, post, hsplit, hpre⟩ := ih h
      refine ⟨x :: pre, post, by simp [hsplit], ?_⟩
      intro z hz
      rcases List.mem_cons.mp hz with rfl | hz
      · exact hpx
      · exact hpre z hz

/-- Converse: if everything before `y` fails the predicate and `y`
satisfies it, `find?` returns `y`. -/
theorem find?_of_decomp {α : Type} {p : α → Bool} :
    ∀ (pre : List α) (y : α) (post : List α), (∀ z ∈ pre, p z = false) →
      p y = true → (pre ++ y :: post).find? p = some y := by
  intro pre
  induction pre with
  | nil => intro y post _ hy; simp [List.find?_cons, hy]
  | cons x xs ih =>
    intro y post hpre hy
    have hx : p x = false := hpre x (List.mem_cons_self _ _)
    simp only [List.cons_append, List.find?_cons, hx]
    exact ih y post (fun z hz => hpre z (List.mem_cons_of_mem _ hz)) hy

/-- Counting argument: if `W` embeds as a sublist of `S`, every element of
`W` satisfies `pr`, and `S` holds no more `pr`-elements than `W` has, then
the first `pr`-element of `S` is the head of `W`. -/
theorem find?_eq_head_of_sublist {α : Type} {pr : α → Bool} :
    ∀ {W S : List α}, W.Sublist S → (∀ w ∈ W, pr w = true) →
      S.countP pr ≤ W.length → S.find? pr = W.head? := by
  intro W S hsub
  induction hsub with
  | slnil => intro _ _; simp
  | @cons W S' s hsub ih =>
    intro hW hcnt
    have hWlen : W.countP pr = W.length := List.countP_eq_length.mpr hW
    have hle : W.length ≤ S'.countP pr := by
      rw [← hWlen]
      exact List.Sublist.countP_le pr hsub
    cases hps : pr s with
    | true =>
      exfalso
      rw [List.countP_cons_of_pos pr S' hps] at hcnt
      omega
    | false =>
      rw [List.countP_cons_of_neg pr S' (by simp [hps])] at hcnt
      rw [List.find?_cons, hps]
      exact ih hW hcnt
  | @cons₂ W S' s hsub ih =>
    intro hW _
    have hps : pr s = true := hW s (List.mem_cons_self _ _)
    rw [List.find?_cons, hps]
    rfl

/-- Split a filtered list around a distinguished element of the filter
image. -/
theorem filter_eq_append_cons {α : Type} {p : α → Bool} :
    ∀ (l : List α) (preF postF : List α) (m : α),
      l.filter p = preF ++ m :: postF →
      ∃ A B, l = A ++ m :: B ∧ A.filter p = preF ∧ B.filter p = postF := by
  intro l
  induction l with
  | nil =>
    intro preF postF m h
    simp only [List.filter_nil] at h
    exact absurd h.symm (List.append_ne_nil_of_right_ne_nil _ (by simp))
  | cons x xs ih =>
    intro preF postF m h
    cases hpx : p x with
    | true =>
      rw [List.filter_cons_of_pos hpx] at h
      cases preF with
      | nil =>
        obtain ⟨rfl, hxs⟩ : x = m ∧ xs.filter p = postF := by simpa using h
        exact ⟨[], xs, rfl, by simp, hxs⟩
      | cons p₁ pre' =>
        obtain ⟨rfl, hxs⟩ : x = p₁ ∧ xs.filter p = pre' ++ m :: postF := by
          simpa using h
        obtain ⟨A, B, hAB, hA, hB⟩ := ih pre' postF m hxs
        exact ⟨x :: A, B, by simp [hAB], by simp [List.filter_cons_of_pos hpx, hA],
          hB⟩
    | false =>
      rw [List.filter_cons_of_neg (by simp [hpx])] at h
      obtain ⟨A, B, hAB, hA, hB⟩ := ih preF postF m h
      exact ⟨x :: A, B, by simp [hAB],
        by simp [List.filter_cons_of_neg, hpx, hA], hB⟩

/-- Core equivalence: scanning the priority-sorted (stable) list for the
first available model returns exactly the first minimal-key element of the
available sublist in original order. -/
theorem find?_mergeSort_eq_firstMinBy {α : Type} [DecidableEq α]
    (key : α → Int) (p : α → Bool) (l : List α) :
    ((l.mergeSort (fun a b => decide (key a ≤ key b))).find? p) =
      firstMinBy key (l.filter p) := by
  have htrans : ∀ a b c : α, (fun a b => decide (key a ≤ key b)) a b = true →
      (fun a b => decide (key a ≤ key b)) b c = true →
      (fun a b => decide (key a ≤ key b)) a c = true := by
    intro a b c hab hbc
    simp only [decide_eq_true_eq] at hab hbc ⊢
    omega
  have htotal : ∀ a b : α, ((fun a b => decide (key a ≤ key b)) a b ||
      (fun a b => decide (key a ≤ key b)) b a) = true := by
    intro a b
    simp only [Bool.or_eq_true, decide_eq_true_eq]
    omega
  have hperm := List.mergeSort_perm l (fun a b => decide (key a ≤ key b))
  have hsorted := List.sorted_mergeSort htrans htotal l
  cases hfm : firstMinBy key (l.filter p) with
  | none =>
    have hnil : l.filter p = [] := (firstMinBy_eq_none key _).mp hfm
    rw [List.find?_eq_none]
    intro x hx hpx
    have : x ∈ l.filter p :=
      List.mem_filter.mpr ⟨(hperm.mem_iff).mp hx, hpx⟩
    rw [hnil] at this
    simp at this
  | some m0 =>
    obtain ⟨preF, postF, hsplitF, hpreF, hpostF⟩ :=
      firstMinBy_decomp key _ m0 hfm
    have hm0f : m0 ∈ l.filter p := by
      rw [hsplitF]
      exact List.mem_append.mpr (Or.inr (List.mem_cons_self _ _))
    have hm0p : p m0 = true := (List.mem_filter.mp hm0f).2
    have hm0l : m0 ∈ l := (List.mem_filter.mp hm0f).1
    have hm0min : ∀ z ∈ l, p z = true → key m0 ≤ key z := by
      intro z hz hpz
      have hzf : z ∈ l.filter p := List.mem_filter.mpr ⟨hz, hpz⟩
      rw [hsplitF] at hzf
      rcases List.mem_append.mp hzf with hin | hin
      · exact le_of_lt (hpreF z hin)
      · rcases List.mem_cons.mp hin with rfl | hin
        · exact le_refl _
        · exact hpostF z hin
    have hex : ∃ y, (l.mergeSort (fun a b => decide (key a ≤ key b))).find? p =
        some y := by
      cases hf : (l.mergeSort (fun a b => decide (key a ≤ key b))).find? p with
      | none =>
        rw [List.find?_eq_none] at hf
        exact absurd hm0p (by simpa using hf m0 ((hperm.mem_iff).mpr hm0l))
      | some y => exact ⟨y, rfl⟩
    obtain ⟨y, hy⟩ := hex
    rw [hy]
    suffices hym : y = m0 by rw [hym]
    have hyp : p y = true := List.find?_some hy
    have hyl : y ∈ l := (hperm.mem_iff).mp (List.mem_of_find?_eq_some hy)
    obtain ⟨preS, postS, hsplitS, hpreS⟩ := find?_decomp hy
    have hkey_le : key y ≤ key m0 := by
      have hm0S : m0 ∈ l.mergeSort (fun a b => decide (key a ≤ key b)) :=
        (hperm.mem_iff).mpr hm0l
      rw [hsplitS] at hm0S
      rcases List.mem_append.mp hm0S with hin | hin
      · exact absurd hm0p (by simp [hpreS m0 hin])
      · rcases List.mem_cons.mp hin with heq | hin
        · rw [heq]
        · have hpw := hsorted
          rw [hsplitS] at hpw
          have hys := (List.pairwise_append.mp hpw).2.1
          have := (List.pairwise_cons.mp hys).1 m0 hin
          simpa using this
    have hkey : key y = key m0 :=
      le_antisymm hkey_le (hm0min y hyl hyp)
    by_contra hne
    obtain ⟨A, B, hAB, hA, hB⟩ := filter_eq_append_cons l preF postF m0 hsplitF
    have hWhead : l.filter (fun z => p z && decide (key z = key m0)) =
        m0 :: B.filter (fun z => p z && decide (key z = key m0)) := by
      rw [hAB, List.filter_append, List.filter_cons_of_pos
        (by simp [hm0p])]
      have hAnil : A.filter (fun z => p z && decide (key z = key m0)) = [] := by
        rw [List.filter_eq_nil_iff]
        intro a ha hpa
        simp only [Bool.and_eq_true, decide_eq_true_eq] at hpa
        have haf : a ∈ A.filter p := List.mem_filter.mpr ⟨ha, hpa.1⟩
        rw [hA] at haf
        have := hpreF a haf
        omega
      rw [hAnil, List.nil_append]
    have hWsub : (l.filter (fun z => p z && decide (key z = key m0))).Sublist
        (l.mergeSort (fun a b => decide (key a ≤ key b))) := by
      refine List.sublist_mergeSort htrans htotal ?_ (List.filter_sublist l)
      refine List.pairwise_of_forall_mem_list ?_
      intro a ha b hb
      have hka := (List.mem_filter.mp ha).2
      have hkb := (List.mem_filter.mp hb).2
      simp only [Bool.and_eq_true, decide_eq_true_eq] at hka hkb ⊢
      omega
    have hcnt : (l.mergeSort (fun a b => decide (key a ≤ key b))).countP
        (fun z => p z && decide (key z = key m0)) =
        (l.filter (fun z => p z && decide (key z = key m0))).length := by
      rw [List.Perm.countP_eq _ hperm, List.countP_eq_length_filter]
    have hfpr := find?_eq_head_of_sublist hWsub
      (fun w hw => (List.mem_filter.mp hw).2) (le_of_eq hcnt)
    rw [hWhead] at hfpr
    have hfpr' : (l.mergeSort (fun a b => decide (key a ≤ key b))).find?
        (fun z => p z && decide (key z = key m0)) = some y := by
      rw [hsplitS]
      refine find?_of_decomp preS y postS ?_ (by simp [hyp, hkey])
      intro z hz
      simp [hpreS z hz]
    rw [hfpr'] at hfpr
    exact hne (by simpa using hfpr)

/-- Availability as the implementation computes it agrees with the spec's
"in the past or unset" reading at any positive instant. -/
theorem impl_avail_eq_specAvailable (rl : List (String × Int)) (now : Int)
    (hnow : 0 < now) (m : ModelConfig) :
    decide (now > rateLimitLookup rl (get_model_key m)) =
      specAvailable rl now m := by
  unfold rateLimitLookup specAvailable
  cases rl.find? (fun p => decide (p.1 = get_model_key m)) with
  | none => simpa using hnow
  | some p => rfl

/-- The implementation refines the spec-side selection: helper instance of
the core equivalence. -/
theorem get_available_model_eq_spec (mgr : ModelFailoverManager) (now : Int)
    (hnow : 0 < now) :
    get_available_model mgr now =
      lowestPriorityAvailable mgr.models
        (specAvailable mgr.rate_limit_until now) := by
  unfold get_available_model lowestPriorityAvailable
  rw [find?_mergeSort_eq_firstMinBy (fun m : ModelConfig => m.priority)]
  congr 1
  exact List.filter_congr
    (fun m _ => impl_avail_eq_specAvailable mgr.rate_limit_until now hnow m)

/-- C6: for every model list and cooldown map (at any positive instant),
`get_available_model` returns exactly the available model with the lowest
priority number, ties broken by insertion order (stated as equality with
the spec-side `lowestPriorityAvailable`), and returns `none` iff every
model is under cooldown; in particular, with priority-1 `scenarioP1`
rate-limited until 1100 and priority-2 `scenarioP2` free, at instant 1000
it returns `scenarioP2`, and after `mark_available(scenarioP1)` it returns
`scenarioP1` again. -/
theorem get_available_model_spec :
    ∀ (mgr : ModelFailoverManager) (now : Int), 0 < now →
      (get_available_model mgr now =
        lowestPriorityAvailable mgr.models
          (specAvailable mgr.rate_limit_until now)) ∧
      (get_available_model mgr now = none ↔
        ∀ m ∈ mgr.models, specAvailable mgr.rate_limit_until now m = false) ∧
      (get_available_model scenarioMgr 1000 = some scenarioP2 ∧
       get_available_model (mark_available scenarioMgr scenarioP1) 1000 =
         some scenarioP1) := by
  intro mgr now hnow
  have hmain := get_available_model_eq_spec mgr now hnow
  have hs1 : get_available_model scenarioMgr 1000 = some scenarioP2 := by
    rw [get_available_model_eq_spec scenarioMgr 1000 (by decide)]
    decide
  have hs2 : get_available_model (mark_available scenarioMgr scenarioP1) 1000 =
      some scenarioP1 := by
    rw [get_available_model_eq_spec (mark_available scenarioMgr scenarioP1)
      1000 (by decide)]
    decide
  refine ⟨hmain, ?_, hs1, hs2⟩
  rw [hmain]
  unfold lowestPriorityAvailable
  rw [firstMinBy_eq_none]
  constructor
  · intro hnil m hm
    by_contra hav
    have : m ∈ mgr.models.filter (specAvailable mgr.rate_limit_until now) :=
      List.mem_filter.mpr ⟨hm, by simpa using hav⟩
    rw [hnil] at this
    simp at this
  · intro hall
    rw [List.filter_eq_nil_iff]
    intro m hm
    simp [hall m hm]

/-- Witness for C6 at the concrete scenario manager and instant 1000. -/
theorem get_available_model_spec_witness :
    (get_available_model scenarioMgr 1000 =
      lowestPriorityAvailable scenarioMgr.models
        (specAvailable scenarioMgr.rate_limit_until 1000)) ∧
    (get_available_model scenarioMgr 1000 = none ↔
      ∀ m ∈ scenarioMgr.models,
        specAvailable scenarioMgr.rate_limit_until 1000 m = false) ∧
    (get_available_model scenarioMgr 1000 = some scenarioP2 ∧
     get_available_model (mark_available scenarioMgr scenarioP1) 1000 =
       some scenarioP1) :=
  get_available_model_spec scenarioMgr 1000 (by decide)

/-! ## C7: security_first prioritization dequeues the security review first -/

/-- `updRows` is the pointwise rewrite `prioAssign` mapped over the table. -/
theorem updRows_eq_map :
    ∀ (ord : List ResearchTask) (i : Nat) (db : List TaskRow),
      updRows db ord i = db.map (prioAssign ord i) := by
  intro ord
  induction ord with
  | nil => intro i db; simp [updRows, prioAssign]
  | cons t ts ih =>
    intro i db
    rw [updRows, ih, List.map_map]
    rfl

/-- A row whose id does not occur in the ordered list is untouched. -/
theorem prioAssign_not_mem :
    ∀ (ord : List ResearchTask) (i : Nat) (row : TaskRow),
      row.id ∉ ord.map (fun t => t.id) → prioAssign ord i row = row := by
  intro ord
  induction ord with
  | nil => intro i row _; rfl
  | cons t ts ih =>
    intro i row hnm
    have hne : row.id ≠ t.id := by
      intro h
      exact hnm (by simp [h])
    rw [prioAssign, if_neg hne]
    exact ih (i + 1) row (fun h => hnm (List.mem_cons_of_mem _ h))

/-- `prioAssign` changes only the priority field. -/
theorem prioAssign_fields :
    ∀ (ord : List ResearchTask) (i : Nat) (row : TaskRow),
      (prioAssign ord i row).id = row.id ∧
      (prioAssign ord i row).status = row.status ∧
      (prioAssign ord i row).run_id = row.run_id ∧
      (prioAssign ord i row).task_type = row.task_type := by
  intro ord
  induction ord with
  | nil => intro i row; exact ⟨rfl, rfl, rfl, rfl⟩
  | cons t ts ih =>
    intro i row
    rw [prioAssign]
    by_cases h : row.id = t.id
    · rw [if_pos h]
      exact ih (i + 1) _
    · rw [if_neg h]
      exact ih (i + 1) row

/-- A row whose id occurs in the ordered list receives priority at least
`i + 1`. -/
theorem prioAssign_mem_ge :
    ∀ (ord : List ResearchTask) (i : Nat) (row : TaskRow),
      row.id ∈ ord.map (fun t => t.id) →
      (i : Int) + 1 ≤ (prioAssign ord i row).priority := by
  intro ord
  induction ord with
  | nil => intro i row h; simp at h
  | cons t ts ih =>
    intro i row hmem
    rw [prioAssign]
    by_cases h : row.id = t.id
    · rw [if_pos h]
      by_cases hts : ({ row with priority := (i : Int) + 1 } : TaskRow).id ∈
          ts.map (fun t => t.id)
      · have := ih (i + 1) _ hts
        push_cast at this ⊢
        omega
      · rw [prioAssign_not_mem ts (i + 1) _ hts]
    · rw [if_neg h]
      have hmem' : row.id ∈ ts.map (fun t => t.id) := by
        rcases (by simpa using hmem :
            row.id = t.id ∨ ∃ a ∈ ts, a.id = row.id) with heq | ⟨a, ha, hae⟩
        · exact absurd heq h
        · exact List.mem_map.mpr ⟨a, ha, hae⟩
      have := ih (i + 1) row hmem'
      push_cast at this ⊢
      omega

/-- The head of the ordered list gets priority `i + 1` exactly (its id not
repeating later). -/
theorem prioAssign_head (t : ResearchTask) (ts : List ResearchTask) (i : Nat)
    (row : TaskRow) (hid : row.id = t.id)
    (hnm : t.id ∉ ts.map (fun t => t.id)) :
    prioAssign (t :: ts) i row = { row with priority := (i : Int) + 1 } := by
  rw [prioAssign, if_pos hid]
  exact prioAssign_not_mem ts (i + 1) _ (by simpa [hid] using hnm)

/-- The stored `security_first` multiplier for the security category. -/
theorem weightFor_security : weightFor securityFirstMode "security" = 2 := rfl

/-- The stored `security_first` multiplier for the dependencies category. -/
theorem weightFor_dependencies :
    weightFor securityFirstMode "dependencies" = 3/2 := rfl

/-- The stored `security_first` multiplier for the architecture category. -/
theorem weightFor_architecture :
    weightFor securityFirstMode "architecture" = 1 := rfl

/-- The stored `security_first` multiplier for the other category. -/
theorem weightFor_other : weightFor securityFirstMode "other" = 1/2 := rfl

/-- The security-review score in `security_first` mode: base impact 100
times multiplier 2.0. -/
theorem taskScore_security (t : ResearchTask)
    (h : t.task_type = .security_review) :
    taskScore securityFirstMode t = 200 := by
  rw [taskScore, h]
  simp only [TASK_IMPACT_SCORES, get_task_category, weightFor_security]
  norm_num

/-- Every other kind's `security_first` score is at most 135 (attained by
the dependency audit: 90 × 1.5). -/
theorem taskScore_nonsecurity (t : ResearchTask)
    (h : t.task_type ≠ .security_review) :
    taskScore securityFirstMode t ≤ 135 := by
  rw [taskScore]
  cases ht : t.task_type
  case security_review => exact absurd ht h
  all_goals simp only [TASK_IMPACT_SCORES, get_task_category,
    weightFor_security, weightFor_dependencies, weightFor_architecture,
    weightFor_other]
  all_goals norm_num

/-- In `security_first` mode (no token budget) the first task of the
prioritized list is a security review whenever the input contains one, and
the output is a permutation of the input. -/
theorem prioritize_security_first_head (tasks : List ResearchTask)
    (hsec : ∃ t ∈ tasks, t.task_type = .security_review) :
    ∃ t0 restT, prioritize_tasks "security_first" none tasks = t0 :: restT ∧
      t0.task_type = .security_review ∧ (t0 :: restT).Perm tasks := by
  have hpri : prioritize_tasks "security_first" none tasks =
      ((tasks.map (fun t => (t, taskScore securityFirstMode t))).mergeSort
        (fun a b => decide (b.2 ≤ a.2))).map (fun p => p.1) := rfl
  have htrans : ∀ a b c : ResearchTask × ℚ,
      (fun a b : ResearchTask × ℚ => decide (b.2 ≤ a.2)) a b = true →
      (fun a b : ResearchTask × ℚ => decide (b.2 ≤ a.2)) b c = true →
      (fun a b : ResearchTask × ℚ => decide (b.2 ≤ a.2)) a c = true := by
    intro a b c hab hbc
    simp only [decide_eq_true_eq] at hab hbc ⊢
    exact le_trans hbc hab
  have htotal : ∀ a b : ResearchTask × ℚ,
      ((fun a b : ResearchTask × ℚ => decide (b.2 ≤ a.2)) a b ||
       (fun a b : ResearchTask × ℚ => decide (b.2 ≤ a.2)) b a) = true := by
    intro a b
    simp only [Bool.or_eq_true, decide_eq_true_eq]
    exact le_total b.2 a.2
  have hperm := List.mergeSort_perm
    (tasks.map (fun t => (t, taskScore securityFirstMode t)))
    (fun a b => decide (b.2 ≤ a.2))
  have hpair := List.sorted_mergeSort htrans htotal
    (tasks.map (fun t => (t, taskScore securityFirstMode t)))
  obtain ⟨ts0, hts0mem, hts0sec⟩ := hsec
  have hsecpair : (ts0, taskScore securityFirstMode ts0) ∈
      (tasks.map (fun t => (t, taskScore securityFirstMode t))).mergeSort
        (fun a b => decide (b.2 ≤ a.2)) :=
    (hperm.mem_iff).mpr (List.mem_map.mpr ⟨ts0, hts0mem, rfl⟩)
  cases hsortedE : (tasks.map (fun t => (t, taskScore securityFirstMode t))).mergeSort
      (fun a b => decide (b.2 ≤ a.2)) with
  | nil =>
    rw [hsortedE] at hsecpair
    simp at hsecpair
  | cons p0 restS =>
    have hp0mem : p0 ∈ tasks.map (fun t => (t, taskScore securityFirstMode t)) :=
      (hperm.mem_iff).mp (hsortedE ▸ List.mem_cons_self p0 restS)
    obtain ⟨t0, ht0tasks, hp0eq⟩ := List.mem_map.mp hp0mem
    have hp0snd : p0.2 = taskScore securityFirstMode t0 := by rw [← hp0eq]
    have hp0fst : p0.1 = t0 := by rw [← hp0eq]
    have ht0sec : t0.task_type = .security_review := by
      by_contra hne
      have hle135 := taskScore_nonsecurity t0 hne
      rw [hsortedE] at hsecpair
      rcases List.mem_cons.mp hsecpair with heq | htail
      · have : ts0 = t0 := by
          have := congrArg Prod.fst (heq.trans hp0eq.symm)
          simpa using this
        exact hne (this ▸ hts0sec)
      · have hpc := hpair
        rw [hsortedE] at hpc
        have hle := (List.pairwise_cons.mp hpc).1 _ htail
        have h1 : taskScore securityFirstMode ts0 ≤ p0.2 := by
          simpa using hle
        rw [taskScore_security ts0 hts0sec, hp0snd] at h1
        linarith
    refine ⟨t0, restS.map (fun p => p.1), ?_, ht0sec, ?_⟩
    · rw [hpri, hsortedE, List.map_cons, hp0fst]
    · have h1 : (t0 :: restS.map (fun p => p.1)) =
          ((tasks.map (fun t => (t, taskScore securityFirstMode t))).mergeSort
            (fun a b => decide (b.2 ≤ a.2))).map (fun p => p.1) := by
        rw [hsortedE, List.map_cons, hp0fst]
      rw [h1]
      have h2 := hperm.map (fun p : ResearchTask × ℚ => p.1)
      have h3 : (tasks.map (fun t => (t, taskScore securityFirstMode t))).map
          (fun p : ResearchTask × ℚ => p.1) = tasks := by
        rw [List.map_map]
        exact List.map_id' tasks
      rw [h3] at h2
      exact h2

/-- If the queue's (truthy) context matches a pending row of the table,
the dequeue raises the `run_id` `TypeError`: the SELECT finds a row and
`_row_to_task` crashes on it. -/
theorem get_next_pending_task_error_of_mem :
    ∀ (q : QueueState) (r : String) (row : TaskRow),
      q.current_run_id = some r → r ≠ "" → row ∈ q.tasks →
      row.status = .pending → row.run_id = some r →
      get_next_pending_task q none = .error researchTaskRunIdTypeError := by
  intro q r row hq hr hmem hst hrun
  simp only [get_next_pending_task, resolveRunId, hq, runIdTruthy_some hr,
    if_true]
  have hfmem : row ∈ q.tasks.filter
      (fun row => decide (row.status = .pending ∧ row.run_id = some r)) :=
    List.mem_filter.mpr ⟨hmem, by simp [hst, hrun]⟩
  cases hpm : pickFirstMin (q.tasks.filter
      (fun row => decide (row.status = .pending ∧ row.run_id = some r))) with
  | none =>
    exact absurd ((firstMinBy_eq_none (fun row : TaskRow => row.priority) _).mp
      (by exact hpm)) (List.ne_nil_of_mem hfmem)
  | some m => rfl

/-- C7 (evaluation at the failing input): on the concrete scenario —
three pending tasks of run `run1` including a security review —
`security_first` prioritization does put the security-review task first
(first conjunct, via the general `prioritize_security_first_head`: its
score 100 × 2.0 = 200 strictly exceeds every other kind's maximum
90 × 1.5 = 135), but the first dequeue after `update_task_priorities`
raises `TypeError` in `_row_to_task` (the shipped `ResearchTask` rejects
the `run_id=` keyword), so no task — the security review or any other —
is ever returned.  The repository's own test
`test_runner_applies_priority_mode_security_first` expects the dequeued
task to be the security review, so the claim is the evident intent. -/
theorem security_first_dequeue_raises_type_error :
    (∃ t0 restT, prioritize_tasks "security_first" none secScenarioTasks =
      t0 :: restT ∧ t0.task_type = .security_review) ∧
    get_next_pending_task
      (update_task_priorities
        { tasks := secScenarioRows, current_run_id := some "run1" }
        (prioritize_tasks "security_first" none secScenarioTasks)).1 none =
      .error researchTaskRunIdTypeError := by
  constructor
  · obtain ⟨t0, restT, h1, h2, -⟩ := prioritize_security_first_head
      secScenarioTasks
      ⟨{ id := "w2", task_type := .security_review, project_name := "demo",
         project_path := "/demo", status := .pending, priority := 5 },
       by decide, rfl⟩
    exact ⟨t0, restT, h1, h2⟩
  · have hupd : (update_task_priorities
        { tasks := secScenarioRows, current_run_id := some "run1" }
        (prioritize_tasks "security_first" none secScenarioTasks)).1 =
        { tasks := secScenarioRows.map
            (prioAssign (prioritize_tasks "security_first" none secScenarioTasks) 0),
          current_run_id := some "run1" } := by
      simp only [update_task_priorities]
      rw [updRows_eq_map]
    rw [hupd]
    refine get_next_pending_task_error_of_mem _ "run1"
      (prioAssign (prioritize_tasks "security_first" none secScenarioTasks) 0
        secRow1) rfl (by decide) ?_ ?_ ?_
    · exact List.mem_map.mpr ⟨secRow1, by decide, rfl⟩
    · rw [(prioAssign_fields
        (prioritize_tasks "security_first" none secScenarioTasks) 0 secRow1).2.1]
      rfl
    · rw [(prioAssign_fields
        (prioritize_tasks "security_first" none secScenarioTasks) 0 secRow1).2.2.1]
      rfl

end Nightshift
